import Mathlib

/-!
Verification of the bookmark-manager core: the CSV-backed record store
(utils/csv_manager.js, class BookmarkManager), the URL capture pipeline
(utils/url_processor.js, class URLProcessor) and the LLM client
(utils/llm_clients.js, class LLMClient).

The JavaScript is shallowly embedded: the backing CSV file is modelled as the
list of its data rows (each row a partial map from the seven header columns to
string values, which is what the csv-parse `columns: true` option produces);
CSV serialization itself is treated as faithful per RFC 4180 (file-format edge
cases are an explicit non-goal of the spec).  Asynchronous operations become
pure state-passing functions; a thrown `Error` becomes `Except.error`; the
current wall-clock timestamp (`new Date().toISOString()`) is passed in
explicitly as a `now : String` argument.
-/

namespace BookmarkApp

/-- ASCII lower-casing of a single character, as applied by JavaScript
`String.prototype.toLowerCase` on the ASCII range used throughout the app. -/
def jsCharLower (c : Char) : Char :=
  match c with
  | 'A' => 'a' | 'B' => 'b' | 'C' => 'c' | 'D' => 'd' | 'E' => 'e'
  | 'F' => 'f' | 'G' => 'g' | 'H' => 'h' | 'I' => 'i' | 'J' => 'j'
  | 'K' => 'k' | 'L' => 'l' | 'M' => 'm' | 'N' => 'n' | 'O' => 'o'
  | 'P' => 'p' | 'Q' => 'q' | 'R' => 'r' | 'S' => 's' | 'T' => 't'
  | 'U' => 'u' | 'V' => 'v' | 'W' => 'w' | 'X' => 'x' | 'Y' => 'y'
  | 'Z' => 'z'
  | c => c

/-- Whitespace characters removed by JavaScript `String.prototype.trim`
(ASCII subset actually occurring in the data). -/
def jsIsSpace (c : Char) : Bool :=
  c = ' ' || c = '\t' || c = '\n' || c = '\r'

/-- JavaScript `s.toLowerCase()`. -/
def jsToLower (s : String) : String := ⟨s.data.map jsCharLower⟩

/-- Trim a character list at both ends. -/
def trimChars (l : List Char) : List Char :=
  ((l.dropWhile jsIsSpace).reverse.dropWhile jsIsSpace).reverse

/-- JavaScript `s.trim()`. -/
def jsTrim (s : String) : String := ⟨trimChars s.data⟩

/-- JavaScript `x || dflt` for `x` a string field that may be `undefined`:
the default is used when the field is absent or the empty string (both falsy). -/
def jsOr (v : Option String) (dflt : String) : String :=
  match v with
  | some s => if s = "" then dflt else s
  | none => dflt

/-- JavaScript truthiness of a possibly-absent string value. -/
def truthy (v : Option String) : Bool :=
  match v with
  | some s => s ≠ ""
  | none => false

/-- JavaScript `s.startsWith(p)`. -/
def jsStartsWith (s p : String) : Bool := p.data.isPrefixOf s.data

/-- JavaScript `s.split(sep)` for a one-character separator, over character
lists: `"".split(',')` is `[""]`, and empty components are kept. -/
def splitChars (sep : Char) : List Char → List (List Char)
  | [] => [[]]
  | c :: rest =>
    if c = sep then [] :: splitChars sep rest
    else
      match splitChars sep rest with
      | [] => [[c]]
      | h :: t => (c :: h) :: t

/-- JavaScript `s.split(sep)` for strings. -/
def jsSplit (s : String) (sep : Char) : List String :=
  (splitChars sep s.data).map (fun l => ⟨l⟩)

/-- JavaScript `hay.includes(needle)` (substring test), needle-first helper
over character lists. -/
def infixCheck (needle : List Char) : List Char → Bool
  | [] => needle.isEmpty
  | c :: rest => needle.isPrefixOf (c :: rest) || infixCheck needle rest

/-- JavaScript `hay.includes(needle)` for strings. -/
def jsIncludes (hay needle : String) : Bool := infixCheck needle.data hay.data

/-! ### Data model

`CSV_HEADERS = ['URL','Title','Description','Tags','Date','Favorite','Screenshot']`. -/

/-- A fully-populated bookmark record: what `getBookmarks` returns and
`saveBookmarks` writes (all seven header fields present as strings). -/
structure Bookmark where
  URL : String
  Title : String
  Description : String
  Tags : String
  Date : String
  Favorite : String
  Screenshot : String
deriving Repr, DecidableEq, Inhabited

/-- One parsed data row of the backing CSV file (csv-parse with
`columns: true`): each of the seven columns may be absent. -/
structure Row where
  URL : Option String := none
  Title : Option String := none
  Description : Option String := none
  Tags : Option String := none
  Date : Option String := none
  Favorite : Option String := none
  Screenshot : Option String := none
deriving Repr, DecidableEq, Inhabited

/-- The `Favorite` property of a JavaScript object passed to the store may be
a string or a boolean (`toggle-favorite` in main.js passes a boolean). -/
inductive FavInput where
  | str (s : String)
  | bool (b : Bool)
deriving Repr, DecidableEq

/-- A JavaScript object handed to `saveBookmark`/`saveBookmarks`: every field
may be absent (`undefined`). -/
structure JSRecord where
  URL : Option String := none
  Title : Option String := none
  Description : Option String := none
  Tags : Option String := none
  Date : Option String := none
  Favorite : Option FavInput := none
  Screenshot : Option String := none
deriving Repr, DecidableEq, Inhabited

/-- `String(bookmark.Favorite === 'true' || bookmark.Favorite === true)`:
normalization of the possibly-absent `Favorite` property. -/
def favToString (v : Option FavInput) : String :=
  match v with
  | some (.str s) => if s = "true" then "true" else "false"
  | some (.bool b) => if b then "true" else "false"
  | none => "false"

/-- Normalization of a `Favorite` value already known to be a string:
`String(v === 'true')`. -/
def favNorm (s : String) : String := if s = "true" then "true" else "false"

/-! ### Record Store (`BookmarkManager`, utils/csv_manager.js) -/

/-- The per-row default fill of `getBookmarks` (lines 230-234): every header
field is populated, an absent field defaults to `''` except `Favorite`,
which defaults to `'false'`. -/
def rowToBookmark (r : Row) : Bookmark :=
  { URL := r.URL.getD ""
    Title := r.Title.getD ""
    Description := r.Description.getD ""
    Tags := r.Tags.getD ""
    Date := r.Date.getD ""
    Favorite := r.Favorite.getD "false"
    Screenshot := r.Screenshot.getD "" }

/-- `getBookmarks` (lines 205-249): rows whose `URL` is absent or empty are
skipped with a warning (not an error); kept rows get the default fill. -/
def getBookmarks (file : List Row) : List Bookmark :=
  (file.filter (fun r => truthy r.URL)).map rowToBookmark

/-- A full record, as written back by `saveBookmarks`, seen as a CSV row. -/
def bookmarkToRow (b : Bookmark) : Row :=
  { URL := some b.URL
    Title := some b.Title
    Description := some b.Description
    Tags := some b.Tags
    Date := some b.Date
    Favorite := some b.Favorite
    Screenshot := some b.Screenshot }

/-- A full record seen as the JavaScript object it is (all fields defined). -/
def bookmarkToJS (b : Bookmark) : JSRecord :=
  { URL := some b.URL
    Title := some b.Title
    Description := some b.Description
    Tags := some b.Tags
    Date := some b.Date
    Favorite := some (.str b.Favorite)
    Screenshot := some b.Screenshot }

/-- The per-record normalization inside `saveBookmarks` (lines 295-306):
`record[header] = bookmark[header] !== undefined ? bookmark[header] : ''`,
with `Favorite` coerced to the string enum. -/
def processRecord (r : JSRecord) : Bookmark :=
  { URL := r.URL.getD ""
    Title := r.Title.getD ""
    Description := r.Description.getD ""
    Tags := r.Tags.getD ""
    Date := r.Date.getD ""
    Favorite := favToString r.Favorite
    Screenshot := r.Screenshot.getD "" }

/-- The body of `saveBookmarks` after the array check (lines 293-314):
normalize every record and rewrite the whole file; returns the saved array
and the new file contents. -/
def saveBookmarksCore (bs : List JSRecord) (_file : List Row) :
    List Bookmark × List Row :=
  let processed := bs.map processRecord
  (processed, processed.map bookmarkToRow)

/-- A JavaScript argument that may or may not be an array
(`Array.isArray` check in `saveBookmarks`, line 290). -/
inductive JSArg where
  | arr (l : List JSRecord)
  | nonArray
deriving Repr, DecidableEq

/-- `saveBookmarks` (lines 289-319).  The error result leaves the backing
file untouched (the check precedes every file operation). -/
def saveBookmarks (a : JSArg) (file : List Row) :
    Except String (List Bookmark) × List Row :=
  match a with
  | .nonArray =>
    (.error "Invalid data provided to saveBookmarks: Expected an array.", file)
  | .arr bs =>
    let (processed, file2) := saveBookmarksCore bs file
    (.ok processed, file2)

/-- `newBookmarkData` construction in `saveBookmark` (lines 260-268): every
one of the seven fields is populated, absent optional fields falling back to
defaults and `Date` falling back to the current timestamp `now`. -/
def newBookmarkData (now : String) (b : JSRecord) : Bookmark :=
  { URL := b.URL.getD ""
    Title := jsOr b.Title ""
    Description := jsOr b.Description ""
    Tags := jsOr b.Tags ""
    Date := jsOr b.Date now
    Favorite := favToString b.Favorite
    Screenshot := jsOr b.Screenshot "" }

/-- JS spread `{...old, ...nw}` where both operands carry all seven keys with
defined values: every field of the right operand wins. -/
def spreadAll (_old nw : Bookmark) : Bookmark :=
  { URL := nw.URL
    Title := nw.Title
    Description := nw.Description
    Tags := nw.Tags
    Date := nw.Date
    Favorite := nw.Favorite
    Screenshot := nw.Screenshot }

/-- JavaScript `Array.prototype.findIndex` (−1 encoded as `none`). -/
def findIndex (p : Bookmark → Bool) : List Bookmark → Option Nat
  | [] => none
  | b :: rest => if p b then some 0 else (findIndex p rest).map (· + 1)

/-- `saveBookmark` (lines 251-287): guard on `bookmark.URL`, load, find by
exact URL match, update-or-append, then write back through the
`saveBookmarks` path.  `now` stands for `new Date().toISOString()`. -/
def saveBookmark (now : String) (b : JSRecord) (file : List Row) :
    Except String (List Bookmark) × List Row :=
  if truthy b.URL = false then
    (.error "Cannot save bookmark without a URL.", file)
  else
    let bookmarks := getBookmarks file
    let nd := newBookmarkData now b
    let merged :=
      match findIndex (fun x => x.URL = b.URL.getD "") bookmarks with
      | some i => bookmarks.set i (spreadAll (bookmarks.getD i nd) nd)
      | none => bookmarks ++ [nd]
    let (processed, file2) := saveBookmarksCore (merged.map bookmarkToJS) file
    (.ok processed, file2)

/-- The merged collection built inside `saveBookmark` before the write-back
(same let-chain as in `saveBookmark`, named so theorems can refer to it). -/
def mergedOf (now : String) (b : JSRecord) (file : List Row) : List Bookmark :=
  let bookmarks := getBookmarks file
  let nd := newBookmarkData now b
  match findIndex (fun x => x.URL = b.URL.getD "") bookmarks with
  | some i => bookmarks.set i (spreadAll (bookmarks.getD i nd) nd)
  | none => bookmarks ++ [nd]

/-- `searchBookmarks` (lines 321-339): empty/blank/undefined query returns
everything, otherwise case-insensitive substring match of the lower-cased,
trimmed query against URL, Title, Description and Tags. -/
def searchBookmarks (query : Option String) (bookmarks : List Bookmark) :
    List Bookmark :=
  match query with
  | none => bookmarks
  | some q =>
    if q = "" then bookmarks
    else
      let searchTerm := jsTrim (jsToLower q)
      if searchTerm = "" then bookmarks
      else
        bookmarks.filter (fun b =>
          (b.URL ≠ "" && jsIncludes (jsToLower b.URL) searchTerm) ||
          (b.Title ≠ "" && jsIncludes (jsToLower b.Title) searchTerm) ||
          (b.Description ≠ "" && jsIncludes (jsToLower b.Description) searchTerm) ||
          (b.Tags ≠ "" && jsIncludes (jsToLower b.Tags) searchTerm))

/-- `filterByTags` (lines 341-362): candidate tags are lower-cased and
trimmed; a record matches when some of its own comma-separated tags
(trimmed, lower-cased, empties dropped) equals some candidate. -/
def filterByTags (tags : List String) (bookmarks : List Bookmark) :
    List Bookmark :=
  if tags.length = 0 then bookmarks
  else
    let filterTags := tags.map (fun t => jsTrim (jsToLower t))
    bookmarks.filter (fun b =>
      if b.Tags = "" then false
      else
        let bookmarkTags :=
          ((jsSplit b.Tags (',' : Char)).map (fun t => jsToLower (jsTrim t))).filter
            (fun t => t ≠ "")
        filterTags.any (fun ft => decide (ft ∈ bookmarkTags)))

/-- The row normalization inside `importFromCSV` (lines 401-411): default
fill as in `getBookmarks`, plus coercion of `Favorite` to `'true'/'false'`. -/
def importRowToBookmark (r : Row) : Bookmark :=
  { rowToBookmark r with Favorite := favNorm (r.Favorite.getD "false") }

/-- Keys of an association list modelling a JavaScript `Map`. -/
def mapKeys (m : List (String × Bookmark)) : List String := m.map Prod.fst

/-- `Map.prototype.set`: overwrite in place when the key exists (insertion
position is kept), otherwise append. -/
def mapSet (m : List (String × Bookmark)) (k : String) (v : Bookmark) :
    List (String × Bookmark) :=
  if k ∈ mapKeys m then
    m.map (fun p => if p.1 = k then (k, v) else p)
  else
    m ++ [(k, v)]

/-- `Map.prototype.get`. -/
def mapGet (m : List (String × Bookmark)) (k : String) : Option Bookmark :=
  (m.find? (fun p => p.1 = k)).map Prod.snd

/-- `new Map(currentBookmarks.map(b => [b.URL, b]))` (line 425). -/
def mapFromList (bs : List Bookmark) : List (String × Bookmark) :=
  bs.foldl (fun m b => mapSet m b.URL b) []

/-- One iteration of the merge loop of `importFromCSV` (lines 430-441).
When the URL exists, `Object.assign(existing, imported)` overwrites every
one of the existing entry's seven fields in place (position kept); when it
does not, the record is appended.  Both branches amount to a `Map.set`. -/
def importStep (m : List (String × Bookmark)) (imported : Bookmark) :
    List (String × Bookmark) :=
  match mapGet m imported.URL with
  | some _ => mapSet m imported.URL imported
  | none => mapSet m imported.URL imported

/-- `importFromCSV` (lines 381-459), with the source file already parsed into
rows.  Returns the resolved count and the backing file after the merge. -/
def importFromCSV (source : List Row) (file : List Row) :
    Except String Nat × List Row :=
  let importedBookmarks :=
    (source.filter (fun r => truthy r.URL)).map importRowToBookmark
  if importedBookmarks.length = 0 then
    (.ok 0, file)
  else
    let currentBookmarks := getBookmarks file
    let currentUrls := mapFromList currentBookmarks
    let mergedMap := importedBookmarks.foldl importStep currentUrls
    let mergedBookmarks := mergedMap.map Prod.snd
    let (_, file2) := saveBookmarksCore (mergedBookmarks.map bookmarkToJS) file
    (.ok importedBookmarks.length, file2)

/-- The list of valid records read from an import file (the rows kept and
normalized by the parse stage of `importFromCSV`). -/
def importedOf (source : List Row) : List Bookmark :=
  (source.filter (fun r => truthy r.URL)).map importRowToBookmark

/-! ### Page Capture Pipeline (`URLProcessor`, utils/url_processor.js) -/

/-- The URL normalization at the top of `processURL`/`takeScreenshot`
(part_000 lines 514-516):
`if (!url.startsWith('http://') && !url.startsWith('https://')) url = 'https://' + url`. -/
def normalizeURL (url : String) : String :=
  if !(jsStartsWith url "http://") && !(jsStartsWith url "https://") then
    "https://" ++ url
  else url

/-- The record composed at the end of `processURL` (part_000 lines 607-615),
parameterized by the outcomes of the I/O steps (extracted title, LLM replies,
timestamp, screenshot path and its existence on disk). -/
def processURLRecord (inputUrl title description tags now screenshotPath : String)
    (screenshotExists : Bool) : Bookmark :=
  let url := normalizeURL inputUrl
  { URL := url
    Title := if title = "" then "Untitled" else title
    Description := description
    Tags := tags
    Date := now
    Favorite := "false"
    Screenshot := if screenshotExists then screenshotPath else "" }

/-! ### LLM Client (`LLMClient`, utils/llm_clients.js, evolved variant) -/

/-- The provider inferred from the configured endpoint URL. -/
inductive Provider where
  | ollama | deepseek | mistral | openai | generic
deriving Repr, DecidableEq

/-- A `{content}` message object of a chat-style reply. -/
structure Msg where
  content : String
deriving Repr, DecidableEq

/-- One element of the OpenAI-style `choices` array. -/
structure Choice where
  message : Option Msg := none
deriving Repr, DecidableEq

/-- An LLM HTTP response body; each of the three known shapes may or may not
be present. -/
structure ResponseData where
  message : Option Msg := none
  choices : Option (List Choice) := none
  response : Option String := none
deriving Repr, DecidableEq

/-- `responseData.message && responseData.message.content`: the chat-style
shape, defined when the message object exists and its content is truthy. -/
def chatContent (d : ResponseData) : Option String :=
  match d.message with
  | some m => if m.content = "" then none else some m.content
  | none => none

/-- `responseData.choices && responseData.choices[0] &&
responseData.choices[0].message && responseData.choices[0].message.content`:
the OpenAI-style shape. -/
def openaiContent (d : ResponseData) : Option String :=
  match d.choices with
  | some (ch :: _) =>
    match ch.message with
    | some m => if m.content = "" then none else some m.content
    | none => none
  | _ => none

/-- `responseData.response`: the legacy shape. -/
def legacyContent (d : ResponseData) : Option String :=
  match d.response with
  | some r => if r = "" then none else some r
  | none => none

/-- `_extractResponseText` (part_000 lines 98-118): the chat-style shape is
consulted only for the ollama provider, then the OpenAI-style shape, then the
legacy shape, else the empty string. -/
def extractResponseText (p : Provider) (d : ResponseData) : String :=
  if p = Provider.ollama ∧ (chatContent d).isSome then (chatContent d).getD ""
  else if (openaiContent d).isSome then (openaiContent d).getD ""
  else if (legacyContent d).isSome then (legacyContent d).getD ""
  else ""

/-- Outcome of the axios POST inside `_makeApiCall`: an HTTP response with a
status and parsed JSON body, a network-level failure, or a timeout. -/
inductive ApiResult where
  | ok (status : Nat) (data : ResponseData)
  | networkError (code : String)
  | timeout
deriving Repr, DecidableEq

/-- `_makeApiCall` (part_000 lines 121-170): on a 200 response, extract and
trim the reply text; every other outcome (non-200 status, network error,
timeout) is thrown as a descriptive `Error`. -/
def makeApiCall (p : Provider) (r : ApiResult) : Except String String :=
  match r with
  | .ok status data =>
    if status = 200 then .ok (jsTrim (extractResponseText p data))
    else .error ("API request failed with status " ++ toString status)
  | .networkError code => .error ("Network Error: " ++ code)
  | .timeout => .error "API Error: No response received"

/-- The apostrophe character (cannot be written as a literal here). -/
def aposChar : Char := Char.ofNat 39

/-- Membership in the regex class `["'\s]`. -/
def isQuoteOrSpace (c : Char) : Bool :=
  c = '"' || c = aposChar || jsIsSpace c

/-- Strip a maximal run of characters satisfying `p` from both ends. -/
def stripEndsChars (p : Char → Bool) (l : List Char) : List Char :=
  ((l.dropWhile p).reverse.dropWhile p).reverse

/-- `replace(/^["'\s]+|["'\s]+$/g, '')`: surrounding quotes/whitespace
removed. -/
def stripQuotesWs (s : String) : String := ⟨stripEndsChars isQuoteOrSpace s.data⟩

/-- `replace(/^(p1|p2|...)\s*/i, '')`: drop the first alternative that
matches case-insensitively at the start, plus following whitespace. -/
def stripPrefixCI (ps : List String) (s : String) : String :=
  match ps.find? (fun p => jsStartsWith (jsToLower s) (jsToLower p)) with
  | some p => ⟨(s.data.drop p.data.length).dropWhile jsIsSpace⟩
  | none => s

/-- `replace(/\.$/, '')`: drop one trailing period. -/
def stripTrailingPeriod (s : String) : String :=
  match s.data.getLast? with
  | some c => if c = '.' then ⟨s.data.dropLast⟩ else s
  | none => s

/-- The preamble alternatives stripped by `generateTags` (line 187). -/
def tagPrefixes : List String :=
  ["Tags:", "Output:", "Response:", "Here are the tags:"]

/-- The preamble alternatives stripped by `generateDescription` (line 211). -/
def descPrefixes : List String :=
  ["Description:", "Output:", "Response:", "Here is the description:"]

/-- The cleanup applied by `generateTags` to a successful reply
(lines 185-189). -/
def cleanupTags (t : String) : String :=
  stripTrailingPeriod (stripPrefixCI tagPrefixes (stripQuotesWs t))

/-- The cleanup applied by `generateDescription` to a successful reply
(lines 209-212). -/
def cleanupDescription (t : String) : String :=
  stripPrefixCI descPrefixes (stripQuotesWs t)

/-- `generateTags` (part_000 lines 173-195): any error from the API call is
caught and replaced by the empty string. -/
def generateTags (p : Provider) (r : ApiResult) : String :=
  match makeApiCall p r with
  | .ok t => cleanupTags t
  | .error _ => ""

/-- `generateDescription` (part_000 lines 197-218): same swallow-on-failure
contract. -/
def generateDescription (p : Provider) (r : ApiResult) : String :=
  match makeApiCall p r with
  | .ok t => cleanupDescription t
  | .error _ => ""

/-! ### Spec-side definitions (used only to compare the code against the
claims that the code refines or contradicts) -/

/-- Following the claim wording for C8: a URL "has a scheme" when it starts
with a nonempty scheme token followed by `://`. -/
def specHasScheme (u : String) : Bool :=
  let scheme := u.data.takeWhile (fun c => c ≠ ':')
  scheme.length > 0 &&
    scheme.all (fun c => c.isAlpha || c.isDigit || c = '+' || c = '-' || c = '.') &&
    [':', '/', '/'].isPrefixOf (u.data.drop scheme.length)

/-- Following the claim wording for C10: try the chat-style shape, then the
OpenAI-style shape, then the legacy shape, regardless of provider. -/
def specExtract (d : ResponseData) : String :=
  match chatContent d with
  | some c => c
  | none =>
    match openaiContent d with
    | some c => c
    | none =>
      match legacyContent d with
      | some c => c
      | none => ""

/-- The tail of `specExtract` with the chat-style shape skipped. -/
def specExtractTail (d : ResponseData) : String :=
  match openaiContent d with
  | some c => c
  | none =>
    match legacyContent d with
    | some c => c
    | none => ""

/-- Following the claim wording for C5: the record's comma-separated Tags
field contains at least one tag equal, case-insensitively after trimming
each tag, to a candidate tag. -/
def specTagMatch (tags : List String) (b : Bookmark) : Prop :=
  ∃ c ∈ jsSplit b.Tags (',' : Char), ∃ t ∈ tags,
    jsToLower (jsTrim c) = jsToLower (jsTrim t)

instance (tags : List String) (b : Bookmark) : Decidable (specTagMatch tags b) := by
  unfold specTagMatch
  infer_instance

/-- Following the claim wording for C6: the query is a case-insensitive
substring of at least one of URL, Title, Description or Tags. -/
def specSearchMatch (q : String) (b : Bookmark) : Prop :=
  ∃ f ∈ [b.URL, b.Title, b.Description, b.Tags],
    jsIncludes (jsToLower f) (jsToLower q) = true

instance (q : String) (b : Bookmark) : Decidable (specSearchMatch q b) := by
  unfold specSearchMatch
  infer_instance

/-! ### Concrete instances used by witnesses and counterexamples -/

/-- A record whose Tags field is `"AI, ml"`. -/
def recAIml : Bookmark := ⟨"https://ai.example", "", "", "AI, ml", "", "false", ""⟩

/-- A record whose Tags field is `"airplane"`. -/
def recAirplane : Bookmark := ⟨"https://air.example", "", "", "airplane", "", "false", ""⟩

/-- A record whose Title is `"foo"`. -/
def recFoo : Bookmark := ⟨"https://x.example", "foo", "", "", "", "false", ""⟩

/-- A backing file holding one fully-populated record. -/
def fileOne : List Row :=
  [⟨some "https://e.example", some "Old", some "orig descr", some "orig tags",
    some "2024-01-01T00:00:00.000Z", some "true", some "/shots/old.png"⟩]

/-- An edit carrying only URL and a new Title. -/
def editTitleOnly : JSRecord :=
  { URL := some "https://e.example", Title := some "New" }

/-- A record with an empty Date field, otherwise fully populated. -/
def recEmptyDate : JSRecord :=
  { URL := some "https://d.example", Title := some "T", Description := some "D",
    Tags := some "G", Date := some "", Favorite := some (.str "yes"),
    Screenshot := some "/shots/d.png" }

/-- Import rows: two rows sharing one URL, plus a row with no URL. -/
def importDupRowA : Row := { URL := some "https://dup.example", Title := some "first" }

/-- Second import row with the same URL as `importDupRowA`. -/
def importDupRowB : Row := { URL := some "https://dup.example", Title := some "second" }

/-- An import row carrying no URL at all. -/
def importRowNoURL : Row := { Title := some "no url here" }

/-- An import row with a URL not present in `fileOne`. -/
def importRowX : Row := { URL := some "https://x1.example", Title := some "X1" }

/-- An import row sharing its URL with the record of `fileOne`. -/
def importRowE : Row := { URL := some "https://e.example", Title := some "E2" }

/-- A response body that only carries the chat-style shape. -/
def chatOnlyBody : ResponseData := { message := some ⟨"hi"⟩ }

/-- A sparse CSV row: a URL and nothing else. -/
def rowSparse : Row := { URL := some "https://w.example" }

/-- A fully-populated record given to `saveBookmark` (nonempty Date). -/
def recFull : JSRecord :=
  { URL := some "https://r.example", Title := some "RT", Description := some "RD",
    Tags := some "RG", Date := some "2024-03-03T00:00:00.000Z",
    Favorite := some (.bool true), Screenshot := some "/shots/r.png" }

/-! ### Helper lemmas -/

theorem jsIsSpace_jsCharLower (c : Char) : jsIsSpace (jsCharLower c) = jsIsSpace c := by
  unfold jsCharLower
  split <;> rfl

theorem trimChars_map_jsCharLower (l : List Char) :
    trimChars (l.map jsCharLower) = (trimChars l).map jsCharLower := by
  have hpf : jsIsSpace ∘ jsCharLower = jsIsSpace := funext jsIsSpace_jsCharLower
  unfold trimChars
  rw [List.dropWhile_map, hpf, ← List.map_reverse, List.dropWhile_map, hpf,
    ← List.map_reverse]

/-- Lower-casing and trimming commute (the code trims candidate tags after
lower-casing and its own tags before; both give the same result). -/
theorem jsTrim_jsToLower (s : String) : jsTrim (jsToLower s) = jsToLower (jsTrim s) := by
  show (⟨trimChars (s.data.map jsCharLower)⟩ : String) = ⟨(trimChars s.data).map jsCharLower⟩
  rw [trimChars_map_jsCharLower]

/-! ### C7: validation errors raised before any I/O -/

/-- C7.  `saveBookmark` called with a record lacking a (truthy) URL, and
`saveBookmarks` called with a non-array argument, both fail with a
descriptive error raised before any file operation, leaving the backing
file unchanged (the returned file state equals the input file state). -/
theorem store_rejects_invalid_input (now : String) (b : JSRecord) (file : List Row)
    (hb : truthy b.URL = false) :
    saveBookmark now b file = (.error "Cannot save bookmark without a URL.", file) ∧
    saveBookmarks .nonArray file =
      (.error "Invalid data provided to saveBookmarks: Expected an array.", file) := by
  constructor
  · unfold saveBookmark
    rw [hb]
    simp
  · rfl

/-- Witness for C7 at a record with no URL and an empty file. -/
theorem store_rejects_invalid_input_witness :
    truthy (JSRecord.URL { Title := some "t" }) = false ∧
    saveBookmark "2024-01-01" { Title := some "t" } [] =
      (.error "Cannot save bookmark without a URL.", []) := by
  refine ⟨rfl, ?_⟩
  exact (store_rejects_invalid_input "2024-01-01" { Title := some "t" } [] rfl).1

/-! ### C8: URL normalization in the capture pipeline -/

/-- Counterexample to C8 as stated: `"ftp://example.com"` has a scheme, yet
`processURL` does not leave it unchanged — it prepends `https://` because its
check only looks for the `http://` and `https://` prefixes. -/
theorem normalizeURL_counterexample :
    specHasScheme "ftp://example.com" = true ∧
    normalizeURL "ftp://example.com" = "https://ftp://example.com" ∧
    normalizeURL "ftp://example.com" ≠ "ftp://example.com" := by
  refine ⟨by decide, by decide, by decide⟩

/-- C8 amended.  The capture pipeline prepends `https://` exactly when the
input URL does not start with `http://` or `https://` (rather than when it
lacks a scheme); a URL starting with either prefix is unchanged, and the
normalized URL is the one placed in the composed record's URL field. -/
theorem normalizeURL_spec (url : String) :
    ((jsStartsWith url "http://" || jsStartsWith url "https://") = true →
      normalizeURL url = url) ∧
    ((jsStartsWith url "http://" || jsStartsWith url "https://") = false →
      normalizeURL url = "https://" ++ url) ∧
    ∀ title description tags now sp se,
      (processURLRecord url title description tags now sp se).URL = normalizeURL url := by
  refine ⟨fun h => ?_, fun h => ?_, fun t d g n sp se => rfl⟩
  · rcases Bool.or_eq_true_iff.mp h with h1 | h1 <;> simp [normalizeURL, h1]
  · rcases Bool.or_eq_false_iff.mp h with ⟨h1, h2⟩
    simp [normalizeURL, h1, h2]

/-- Witness for C8 at a scheme-less URL and at an `https://` URL. -/
theorem normalizeURL_spec_witness :
    (jsStartsWith "example.com" "http://" || jsStartsWith "example.com" "https://") = false ∧
    normalizeURL "example.com" = "https://" ++ "example.com" ∧
    (jsStartsWith "https://example.com" "http://" ||
      jsStartsWith "https://example.com" "https://") = true ∧
    normalizeURL "https://example.com" = "https://example.com" := by
  refine ⟨by decide, ?_, by decide, ?_⟩
  · exact (normalizeURL_spec "example.com").2.1 (by decide)
  · exact (normalizeURL_spec "https://example.com").1 (by decide)

/-! ### C9: LLM generation returns empty string on failure -/

/-- C9.  `generateTags` and `generateDescription` return `""` on every
failure (network error, timeout, non-200 status such as 500) and never
propagate an error; on a 200 response they return the extracted reply with
surrounding quotes/whitespace and any known leading preamble stripped
(tags additionally lose one trailing period). -/
theorem llm_generate_failure_empty :
    (∀ p code, generateTags p (.networkError code) = "") ∧
    (∀ p, generateTags p .timeout = "") ∧
    (∀ p s d, s ≠ 200 → generateTags p (.ok s d) = "") ∧
    (∀ p code, generateDescription p (.networkError code) = "") ∧
    (∀ p, generateDescription p .timeout = "") ∧
    (∀ p s d, s ≠ 200 → generateDescription p (.ok s d) = "") ∧
    (∀ p d, generateTags p (.ok 200 d) =
      cleanupTags (jsTrim (extractResponseText p d))) ∧
    (∀ p d, generateDescription p (.ok 200 d) =
      cleanupDescription (jsTrim (extractResponseText p d))) := by
  refine ⟨fun p code => rfl, fun p => rfl, ?_, fun p code => rfl, fun p => rfl, ?_,
    fun p d => rfl, fun p d => rfl⟩
  · intro p s d hs
    simp [generateTags, makeApiCall, hs]
  · intro p s d hs
    simp [generateDescription, makeApiCall, hs]

/-- Witness for C9: an HTTP 500 response yields `""` from both operations,
and a 200 response with a decorated reply is cleaned up. -/
theorem llm_generate_failure_empty_witness :
    (500 ≠ 200) ∧
    generateTags Provider.generic (.ok 500 chatOnlyBody) = "" ∧
    generateDescription Provider.generic (.ok 500 chatOnlyBody) = "" ∧
    generateTags Provider.ollama
      (.ok 200 { message := some ⟨"  Tags: AI, ML.  "⟩ }) = "AI, ML" := by
  refine ⟨by decide, ?_, ?_, ?_⟩
  · exact llm_generate_failure_empty.2.2.1 Provider.generic 500 chatOnlyBody (by decide)
  · exact llm_generate_failure_empty.2.2.2.2.2.1 Provider.generic 500 chatOnlyBody (by decide)
  · exact (llm_generate_failure_empty.2.2.2.2.2.2.1 Provider.ollama
      { message := some ⟨"  Tags: AI, ML.  "⟩ }).trans (by decide)

/-! ### C10: response-shape extraction order -/

/-- Counterexample to C10 as stated: for the generic provider (and every
non-ollama provider) a body carrying only the chat-style
`{message:{content}}` shape yields `""`, not the content — the chat-style
shape is gated on the provider being ollama. -/
theorem extractResponseText_counterexample :
    specExtract chatOnlyBody = "hi" ∧
    extractResponseText Provider.generic chatOnlyBody = "" ∧
    extractResponseText Provider.generic chatOnlyBody ≠ specExtract chatOnlyBody := by
  refine ⟨by decide, by decide, by decide⟩

/-- C10 amended.  For the ollama provider the extraction tries the
chat-style shape, then the OpenAI-style shape, then the legacy shape, and
yields `""` when none match; for every other provider the chat-style shape
is skipped and only the OpenAI-style and legacy shapes are tried, in that
order. -/
theorem extractResponseText_spec (d : ResponseData) :
    extractResponseText Provider.ollama d = specExtract d ∧
    ∀ p, p ≠ Provider.ollama → extractResponseText p d = specExtractTail d := by
  constructor
  · unfold extractResponseText specExtract
    cases hc : chatContent d <;> cases ho : openaiContent d <;>
      cases hl : legacyContent d <;> simp [hc, ho, hl]
  · intro p hp
    unfold extractResponseText specExtractTail
    cases ho : openaiContent d <;> cases hl : legacyContent d <;> simp [hp, ho, hl]

/-- Witness for C10 at the generic provider and an OpenAI-shaped body. -/
theorem extractResponseText_spec_witness :
    (Provider.generic ≠ Provider.ollama) ∧
    extractResponseText Provider.generic
      { choices := some [{ message := some ⟨"reply"⟩ }] } =
      specExtractTail { choices := some [{ message := some ⟨"reply"⟩ }] } := by
  refine ⟨by decide, ?_⟩
  exact (extractResponseText_spec { choices := some [{ message := some ⟨"reply"⟩ }] }).2
    Provider.generic (by decide)

/-! ### Store helper lemmas -/

theorem truthy_isSome (v : Option String) (h : truthy v = true) : v.isSome := by
  cases v <;> simp_all [truthy]

theorem isEmpty_false_of_ne_nil {α : Type} (l : List α) (h : l ≠ []) :
    l.isEmpty = false := by
  cases l with
  | nil => exact absurd rfl h
  | cons a t => rfl

theorem jsOr_some_self (s : String) : jsOr (some s) "" = s := by
  by_cases h : s = "" <;> simp [jsOr, h]

theorem jsOr_none (d : String) : jsOr none d = d := rfl

theorem jsOr_some_of_ne (s d : String) (h : s ≠ "") : jsOr (some s) d = s := by
  simp [jsOr, h]

theorem spreadAll_eq (x nd : Bookmark) : spreadAll x nd = nd := rfl

theorem processRecord_bookmarkToJS (b : Bookmark) :
    processRecord (bookmarkToJS b) = { b with Favorite := favNorm b.Favorite } := rfl

theorem favNorm_favToString (v : Option FavInput) :
    favNorm (favToString v) = favToString v := by
  rcases v with _ | f
  · rfl
  · rcases f with s | b
    · by_cases h : s = "true" <;> simp [favToString, favNorm, h]
    · cases b <;> rfl

theorem rowToBookmark_bookmarkToRow (b : Bookmark) :
    rowToBookmark (bookmarkToRow b) = b := rfl

/-- Reading back a file written record-wise keeps exactly the records with a
nonempty URL. -/
theorem getBookmarks_map_toRow (l : List Bookmark) :
    getBookmarks (l.map bookmarkToRow) = l.filter (fun b => b.URL ≠ "") := by
  unfold getBookmarks
  rw [List.filter_map, List.map_map]
  have h1 : (fun r => truthy r.URL) ∘ bookmarkToRow =
      fun b : Bookmark => decide (b.URL ≠ "") := rfl
  have h2 : rowToBookmark ∘ bookmarkToRow = id := funext fun b => rfl
  rw [h1, h2, List.map_id]

theorem findIndex_lt_length (p : Bookmark → Bool) (l : List Bookmark) (i : Nat)
    (h : findIndex p l = some i) : i < l.length := by
  induction l generalizing i with
  | nil => simp [findIndex] at h
  | cons a t ih =>
    unfold findIndex at h
    by_cases hpa : p a = true
    · rw [if_pos hpa] at h
      cases h
      simp
    · rw [if_neg hpa] at h
      cases hft : findIndex p t with
      | none => rw [hft] at h; simp at h
      | some j =>
        rw [hft] at h
        simp at h
        have := ih j hft
        simp only [List.length_cons]
        omega

theorem findIndex_isSome_of_countP_pos (p : Bookmark → Bool) (l : List Bookmark)
    (h : 0 < l.countP p) : ∃ i, findIndex p l = some i := by
  induction l with
  | nil => simp [List.countP_nil] at h
  | cons a t ih =>
    by_cases hpa : p a = true
    · exact ⟨0, by simp [findIndex, hpa]⟩
    · rw [List.countP_cons] at h
      have h2 : 0 < t.countP p := by simpa [hpa] using h
      obtain ⟨j, hj⟩ := ih h2
      exact ⟨j + 1, by simp [findIndex, hpa, hj]⟩

/-- Updating the unique match in place leaves the new record as the unique
match. -/
theorem filter_set_of_findIndex (p : Bookmark → Bool) (nd : Bookmark)
    (hnd : p nd = true) :
    ∀ (l : List Bookmark) (i : Nat), findIndex p l = some i → l.countP p = 1 →
      (l.set i nd).filter p = [nd] := by
  intro l
  induction l with
  | nil => intro i h _; simp [findIndex] at h
  | cons a t ih =>
    intro i h hc
    by_cases hpa : p a = true
    · unfold findIndex at h
      rw [if_pos hpa] at h
      cases h
      rw [List.countP_cons, if_pos hpa] at hc
      have ht0 : t.countP p = 0 := by omega
      have htnil : t.filter p = [] := List.filter_eq_nil_iff.mpr
        (by simpa using List.countP_eq_zero.mp ht0)
      simp [List.filter_cons, hnd, htnil]
    · unfold findIndex at h
      rw [if_neg hpa] at h
      cases hft : findIndex p t with
      | none => rw [hft] at h; simp at h
      | some j =>
        rw [hft] at h
        simp at h
        subst h
        rw [List.countP_cons, if_neg hpa, Nat.add_zero] at hc
        have : (a :: t).set (j + 1) nd = a :: t.set j nd := rfl
        rw [this, List.filter_cons, if_neg hpa]
        exact ih j hft hc

theorem saveBookmark_ok (now : String) (b : JSRecord) (file : List Row)
    (h : truthy b.URL = true) :
    saveBookmark now b file =
      (.ok ((mergedOf now b file).map (fun x => processRecord (bookmarkToJS x))),
        ((mergedOf now b file).map (fun x => processRecord (bookmarkToJS x))).map
          bookmarkToRow) := by
  unfold saveBookmark mergedOf saveBookmarksCore
  rw [h]
  simp [List.map_map, Function.comp]

theorem getBookmarks_saveBookmark (now : String) (b : JSRecord) (file : List Row)
    (h : truthy b.URL = true) :
    getBookmarks (saveBookmark now b file).2 =
      ((mergedOf now b file).map (fun x => processRecord (bookmarkToJS x))).filter
        (fun x => x.URL ≠ "") := by
  rw [saveBookmark_ok now b file h]
  exact getBookmarks_map_toRow _

theorem mergedOf_some (now : String) (b : JSRecord) (file : List Row) (i : Nat)
    (h : findIndex (fun x => x.URL = b.URL.getD "") (getBookmarks file) = some i) :
    mergedOf now b file = (getBookmarks file).set i (newBookmarkData now b) := by
  have hexp : mergedOf now b file =
      match findIndex (fun x => x.URL = b.URL.getD "") (getBookmarks file) with
      | some i => (getBookmarks file).set i
          (spreadAll ((getBookmarks file).getD i (newBookmarkData now b))
            (newBookmarkData now b))
      | none => getBookmarks file ++ [newBookmarkData now b] := rfl
  rw [hexp, h]
  simp [spreadAll_eq]

theorem newBookmarkData_mem_mergedOf (now : String) (b : JSRecord) (file : List Row) :
    newBookmarkData now b ∈ mergedOf now b file := by
  have hexp : mergedOf now b file =
      match findIndex (fun x => x.URL = b.URL.getD "") (getBookmarks file) with
      | some i => (getBookmarks file).set i
          (spreadAll ((getBookmarks file).getD i (newBookmarkData now b))
            (newBookmarkData now b))
      | none => getBookmarks file ++ [newBookmarkData now b] := rfl
  rw [hexp]
  cases h : findIndex (fun x => x.URL = b.URL.getD "") (getBookmarks file) with
  | none => simp
  | some i =>
    simp only [spreadAll_eq]
    exact List.mem_set _ i (by simpa using findIndex_lt_length _ _ i h) _

/-! ### C4: loadAll drops URL-less rows and fills defaults -/

/-- C4.  `getBookmarks` drops every row missing the URL field (removing such
rows from the file does not change the result), and every record it returns
comes from a row with a URL, with all seven fields populated: an absent
field defaults to `""` except Favorite, which defaults to `"false"`. -/
theorem getBookmarks_drops_and_defaults (file : List Row) :
    getBookmarks file = getBookmarks (file.filter (fun r => r.URL.isSome)) ∧
    ∀ b ∈ getBookmarks file, ∃ r ∈ file, r.URL.isSome ∧
      b.URL = r.URL.getD "" ∧ b.Title = r.Title.getD "" ∧
      b.Description = r.Description.getD "" ∧ b.Tags = r.Tags.getD "" ∧
      b.Date = r.Date.getD "" ∧ b.Favorite = r.Favorite.getD "false" ∧
      b.Screenshot = r.Screenshot.getD "" := by
  constructor
  · unfold getBookmarks
    rw [List.filter_filter]
    exact congrArg _ (List.filter_congr (fun r _ => by cases h : r.URL <;> simp [truthy, h]))
  · intro b hb
    unfold getBookmarks at hb
    rcases List.mem_map.mp hb with ⟨r, hr, rfl⟩
    rcases List.mem_filter.mp hr with ⟨hrf, hrt⟩
    exact ⟨r, hrf, truthy_isSome _ hrt, rfl, rfl, rfl, rfl, rfl, rfl, rfl⟩

/-- Witness for C4 at a one-row file whose row has only a URL. -/
theorem getBookmarks_drops_and_defaults_witness :
    getBookmarks [rowSparse] = getBookmarks ([rowSparse].filter (fun r => r.URL.isSome)) ∧
    ∃ r ∈ [rowSparse], r.URL.isSome ∧
      (rowToBookmark rowSparse).URL = r.URL.getD "" ∧
      (rowToBookmark rowSparse).Title = r.Title.getD "" ∧
      (rowToBookmark rowSparse).Description = r.Description.getD "" ∧
      (rowToBookmark rowSparse).Tags = r.Tags.getD "" ∧
      (rowToBookmark rowSparse).Date = r.Date.getD "" ∧
      (rowToBookmark rowSparse).Favorite = r.Favorite.getD "false" ∧
      (rowToBookmark rowSparse).Screenshot = r.Screenshot.getD "" :=
  ⟨(getBookmarks_drops_and_defaults [rowSparse]).1,
    (getBookmarks_drops_and_defaults [rowSparse]).2 (rowToBookmark rowSparse) (by decide)⟩

/-! ### C2: upsert/load round-trip -/

/-- Counterexample to C2 as stated: a record with an empty Date field is
successfully upserted, but the (unique) record `loadAll` then returns for
its URL carries the upsert-time timestamp as Date, not the record's own
(empty) Date — so a field other than Favorite fails to round-trip. -/
theorem upsert_load_roundtrip_counterexample :
    (saveBookmark "2024-05-05T00:00:00.000Z" recEmptyDate []).1 =
      .ok [⟨"https://d.example", "T", "D", "G", "2024-05-05T00:00:00.000Z",
        "false", "/shots/d.png"⟩] ∧
    getBookmarks (saveBookmark "2024-05-05T00:00:00.000Z" recEmptyDate []).2 =
      [⟨"https://d.example", "T", "D", "G", "2024-05-05T00:00:00.000Z",
        "false", "/shots/d.png"⟩] ∧
    recEmptyDate.Date = some "" ∧
    ("2024-05-05T00:00:00.000Z" : String) ≠ "" := by
  exact ⟨rfl, by decide, rfl, by decide⟩

/-- C2 amended.  For every record successfully upserted whose Date field is
nonempty, a subsequent load returns a record for its URL whose seven fields
equal the record's fields exactly, except that the (possibly boolean-valued)
Favorite is normalized to the literal strings `"true"`/`"false"`; an empty
or missing Date is instead replaced by the upsert-time timestamp. -/
theorem upsert_load_roundtrip (now u title descr tg sc d : String) (fv : FavInput)
    (file : List Row) (hu : u ≠ "") (hd : d ≠ "") :
    ∃ saved file2,
      saveBookmark now
        { URL := some u, Title := some title, Description := some descr,
          Tags := some tg, Date := some d, Favorite := some fv,
          Screenshot := some sc } file = (.ok saved, file2) ∧
      ∃ b ∈ getBookmarks file2,
        b.URL = u ∧ b.Title = title ∧ b.Description = descr ∧ b.Tags = tg ∧
        b.Date = d ∧ b.Favorite = favToString (some fv) ∧ b.Screenshot = sc := by
  set r : JSRecord :=
    { URL := some u, Title := some title, Description := some descr,
      Tags := some tg, Date := some d, Favorite := some fv,
      Screenshot := some sc } with hr
  have hguard : truthy r.URL = true := by simp [truthy, hr, hu]
  refine ⟨_, _, saveBookmark_ok now r file hguard, ?_⟩
  rw [getBookmarks_map_toRow]
  have hnd : newBookmarkData now r =
      ⟨u, title, descr, tg, d, favToString (some fv), sc⟩ := by
    simp [newBookmarkData, hr, jsOr_some_self, jsOr_some_of_ne _ _ hd]
  refine ⟨processRecord (bookmarkToJS (newBookmarkData now r)), ?_, ?_⟩
  · apply List.mem_filter.mpr
    refine ⟨List.mem_map.mpr ⟨_, newBookmarkData_mem_mergedOf now r file, rfl⟩, ?_⟩
    simp [processRecord_bookmarkToJS, hnd, hu]
  · rw [processRecord_bookmarkToJS, hnd]
    exact ⟨rfl, rfl, rfl, rfl, rfl, favNorm_favToString (some fv), rfl⟩

/-- Witness for C2 at a concrete full record upserted into an empty file. -/
theorem upsert_load_roundtrip_witness :
    ∃ saved file2,
      saveBookmark "2024-06-06T00:00:00.000Z"
        { URL := some "https://r.example", Title := some "RT",
          Description := some "RD", Tags := some "RG",
          Date := some "2024-03-03T00:00:00.000Z", Favorite := some (.bool true),
          Screenshot := some "/shots/r.png" } [] = (.ok saved, file2) ∧
      ∃ b ∈ getBookmarks file2,
        b.URL = "https://r.example" ∧ b.Title = "RT" ∧ b.Description = "RD" ∧
        b.Tags = "RG" ∧ b.Date = "2024-03-03T00:00:00.000Z" ∧
        b.Favorite = favToString (some (.bool true)) ∧
        b.Screenshot = "/shots/r.png" :=
  upsert_load_roundtrip "2024-06-06T00:00:00.000Z" "https://r.example" "RT" "RD"
    "RG" "/shots/r.png" "2024-03-03T00:00:00.000Z" (.bool true) [] (by decide)
    (by decide)

/-! ### C1: editing by upsert with an existing URL -/

/-- Counterexample to C1 as stated: upserting a record carrying only URL and
a new Title over an existing fully-populated record leaves exactly one
record for that URL, but its previously-set Description, Tags, Favorite and
Screenshot are reset to defaults and its Date is replaced by the edit-time
timestamp — none of them is preserved. -/
theorem saveBookmark_edit_counterexample :
    getBookmarks fileOne =
      [⟨"https://e.example", "Old", "orig descr", "orig tags",
        "2024-01-01T00:00:00.000Z", "true", "/shots/old.png"⟩] ∧
    editTitleOnly.Description = none ∧ editTitleOnly.Tags = none ∧
    editTitleOnly.Date = none ∧ editTitleOnly.Favorite = none ∧
    editTitleOnly.Screenshot = none ∧
    getBookmarks (saveBookmark "2024-01-02T00:00:00.000Z" editTitleOnly fileOne).2 =
      [⟨"https://e.example", "New", "", "", "2024-01-02T00:00:00.000Z",
        "false", ""⟩] ∧
    (("" : String) ≠ "orig descr") ∧
    (("2024-01-02T00:00:00.000Z" : String) ≠ "2024-01-01T00:00:00.000Z") ∧
    (("false" : String) ≠ "true") := by
  exact ⟨by decide, rfl, rfl, rfl, rfl, rfl, by decide, by decide, by decide, by decide⟩

/-- C1 amended.  Upserting a record that carries a URL already present
(exactly once) in the store and a Title, and omits all other fields, leaves
exactly one stored record for that URL, whose Title is the new Title —
but whose remaining fields take the upsert defaults (empty Description,
Tags and Screenshot, Favorite `"false"`, and Date set to the edit-time
timestamp) instead of the existing record's values. -/
theorem saveBookmark_edit_resets (now u title : String) (file : List Row)
    (hu : u ≠ "") (_ht : title ≠ "")
    (hone : (getBookmarks file).countP (fun x => decide (x.URL = u)) = 1) :
    ∃ saved file2,
      saveBookmark now { URL := some u, Title := some title } file =
        (.ok saved, file2) ∧
      (getBookmarks file2).filter (fun x => decide (x.URL = u)) =
        [⟨u, title, "", "", now, "false", ""⟩] := by
  set r : JSRecord := { URL := some u, Title := some title } with hr
  have hguard : truthy r.URL = true := by simp [truthy, hr, hu]
  obtain ⟨i, hi⟩ := findIndex_isSome_of_countP_pos (fun x => decide (x.URL = u))
    (getBookmarks file) (by omega)
  have hi2 : findIndex (fun x => x.URL = r.URL.getD "") (getBookmarks file) =
      some i := hi
  refine ⟨_, _, saveBookmark_ok now r file hguard, ?_⟩
  rw [getBookmarks_map_toRow, List.filter_filter]
  have hcongr : ∀ x ∈ (mergedOf now r file).map
      (fun y => processRecord (bookmarkToJS y)),
      (decide (x.URL = u) && decide (x.URL ≠ "")) = decide (x.URL = u) := by
    intro x _
    by_cases hxu : x.URL = u
    · simp [hxu, hu]
    · simp [hxu]
  rw [List.filter_congr hcongr, mergedOf_some now r file i hi2, List.filter_map]
  have hcomp : ((fun x : Bookmark => decide (x.URL = u)) ∘
      (fun y => processRecord (bookmarkToJS y))) =
      fun x : Bookmark => decide (x.URL = u) := rfl
  rw [hcomp]
  have hnd : newBookmarkData now r = ⟨u, title, "", "", now, "false", ""⟩ := by
    simp [newBookmarkData, hr, jsOr_some_self, jsOr_none, favToString]
  rw [hnd, filter_set_of_findIndex (fun x => decide (x.URL = u))
    (⟨u, title, "", "", now, "false", ""⟩ : Bookmark) (by simp)
    (getBookmarks file) i hi hone]
  simp [processRecord_bookmarkToJS, favNorm]

/-- Witness for C1 at the one-record file `fileOne`. -/
theorem saveBookmark_edit_resets_witness :
    (("https://e.example" : String) ≠ "") ∧ (("New2" : String) ≠ "") ∧
    (getBookmarks fileOne).countP
      (fun x => decide (x.URL = "https://e.example")) = 1 ∧
    ∃ saved file2,
      saveBookmark "2024-02-02T00:00:00.000Z"
        { URL := some "https://e.example", Title := some "New2" } fileOne =
        (.ok saved, file2) ∧
      (getBookmarks file2).filter (fun x => decide (x.URL = "https://e.example")) =
        [⟨"https://e.example", "New2", "", "", "2024-02-02T00:00:00.000Z",
          "false", ""⟩] :=
  ⟨by decide, by decide, by decide,
    saveBookmark_edit_resets "2024-02-02T00:00:00.000Z" "https://e.example" "New2"
      fileOne (by decide) (by decide) (by decide)⟩

/-! ### C5: tag filtering matches whole tags -/

/-- C5.  For every store and nonempty list of candidate tags (each candidate
nonempty after trimming), `filterByTags` returns exactly the records whose
comma-separated Tags field contains at least one tag equal, case-insensitively
after trimming each tag, to a candidate tag; a candidate that is merely a
substring of a stored tag does not match. -/
theorem filterByTags_spec (ts : List String) (bs : List Bookmark)
    (hne : ts ≠ []) (hts : ∀ t ∈ ts, jsToLower (jsTrim t) ≠ "") :
    filterByTags ts bs = bs.filter (fun b => decide (specTagMatch ts b)) := by
  unfold filterByTags
  rw [if_neg (by simpa [List.length_eq_zero] using hne)]
  apply List.filter_congr
  intro b _
  by_cases htags : b.Tags = ""
  · rw [if_pos htags]
    have hspec : ¬ specTagMatch ts b := by
      rintro ⟨c, hc, t, htm, heq⟩
      rw [htags] at hc
      have hsplit : jsSplit "" (',' : Char) = [""] := rfl
      rw [hsplit] at hc
      have hc0 : c = "" := by simpa using hc
      subst hc0
      have h0 : jsToLower (jsTrim "") = "" := rfl
      rw [h0] at heq
      exact hts t htm heq.symm
    simp [hspec]
  · rw [if_neg htags]
    rw [Bool.eq_iff_iff]
    simp only [List.any_eq_true, List.mem_map, decide_eq_true_eq]
    constructor
    · rintro ⟨ft, ⟨t, htm, rfl⟩, hmem⟩
      rcases List.mem_filter.mp hmem with ⟨hmm, _⟩
      rcases List.mem_map.mp hmm with ⟨c, hc, hceq⟩
      exact ⟨c, hc, t, htm, hceq.trans (jsTrim_jsToLower t)⟩
    · rintro ⟨c, hc, t, htm, heq⟩
      refine ⟨jsTrim (jsToLower t), ⟨t, htm, rfl⟩, ?_⟩
      apply List.mem_filter.mpr
      refine ⟨List.mem_map.mpr ⟨c, hc, heq.trans (jsTrim_jsToLower t).symm⟩, ?_⟩
      have : jsTrim (jsToLower t) ≠ "" := by
        rw [jsTrim_jsToLower t]
        exact hts t htm
      simpa using this

/-- Witness for C5: `["ai"]` matches Tags `"AI, ml"` and does not match
Tags `"airplane"`. -/
theorem filterByTags_spec_witness :
    (["ai"] ≠ ([] : List String)) ∧
    (∀ t ∈ ["ai"], jsToLower (jsTrim t) ≠ "") ∧
    filterByTags ["ai"] [recAIml, recAirplane] = [recAIml] :=
  ⟨by decide, by decide,
    (filterByTags_spec ["ai"] [recAIml, recAirplane] (by decide) (by decide)).trans
      (by decide)⟩

/-! ### C6: search semantics -/

/-- Counterexample to C6 as stated: the query `" foo "` is not a
case-insensitive substring of any field of the record (whose Title is
`"foo"`), yet `searchBookmarks` returns the record — the code matches the
trimmed query, not the query itself. -/
theorem searchBookmarks_counterexample :
    searchBookmarks (some " foo ") [recFoo] = [recFoo] ∧
    ¬ specSearchMatch " foo " recFoo ∧
    jsTrim (jsToLower " foo ") = "foo" := by
  exact ⟨by decide, by decide, by decide⟩

/-- C6 amended.  `search(query)` returns exactly the records for which the
trimmed query is a case-insensitive substring of at least one of URL, Title,
Description or Tags; an empty, blank, or undefined query returns the full
unfiltered collection. -/
theorem searchBookmarks_spec (bs : List Bookmark) :
    searchBookmarks none bs = bs ∧
    (∀ q, jsTrim (jsToLower q) = "" → searchBookmarks (some q) bs = bs) ∧
    (∀ q, jsTrim (jsToLower q) ≠ "" →
      searchBookmarks (some q) bs =
        bs.filter (fun b => decide (specSearchMatch (jsTrim q) b))) := by
  refine ⟨rfl, ?_, ?_⟩
  · intro q hq
    by_cases hq0 : q = "" <;> simp [searchBookmarks, hq0, hq]
  · intro q hq
    have hq0 : q ≠ "" := by
      rintro rfl
      exact hq rfl
    simp only [searchBookmarks]
    rw [if_neg hq0, if_neg hq]
    apply List.filter_congr
    intro b _
    have hfield : ∀ f : String,
        (decide (f ≠ "") && jsIncludes (jsToLower f) (jsTrim (jsToLower q))) =
          jsIncludes (jsToLower f) (jsTrim (jsToLower q)) := by
      intro f
      by_cases hf : f = ""
      · subst hf
        have hdata : (jsTrim (jsToLower q)).data ≠ [] := by
          intro h
          exact hq (String.ext h)
        have hrhs : jsIncludes (jsToLower "") (jsTrim (jsToLower q)) = false := by
          have hconv : jsIncludes (jsToLower "") (jsTrim (jsToLower q)) =
              (jsTrim (jsToLower q)).data.isEmpty := rfl
          rw [hconv]
          exact isEmpty_false_of_ne_nil _ hdata
        simp [hrhs]
      · simp [hf]
    rw [hfield b.URL, hfield b.Title, hfield b.Description, hfield b.Tags,
      jsTrim_jsToLower q]
    have hany : decide (specSearchMatch (jsTrim q) b) =
        [b.URL, b.Title, b.Description, b.Tags].any
          (fun f => jsIncludes (jsToLower f) (jsToLower (jsTrim q))) := by
      rw [Bool.eq_iff_iff]
      simp [specSearchMatch, List.any_eq_true]
    rw [hany]
    simp [List.any_cons, List.any_nil, Bool.or_assoc]

/-- Witness for C6: undefined, blank and uppercase-padded queries against a
one-record store. -/
theorem searchBookmarks_spec_witness :
    searchBookmarks none [recFoo] = [recFoo] ∧
    searchBookmarks (some "   ") [recFoo] = [recFoo] ∧
    searchBookmarks (some " FOO ") [recFoo] =
      List.filter (fun b => decide (specSearchMatch (jsTrim " FOO ") b)) [recFoo] :=
  ⟨(searchBookmarks_spec [recFoo]).1,
    (searchBookmarks_spec [recFoo]).2.1 "   " (by decide),
    (searchBookmarks_spec [recFoo]).2.2 " FOO " (by decide)⟩

/-! ### C3: import merge counting -/

theorem importStep_eq (m : List (String × Bookmark)) (b : Bookmark) :
    importStep m b = mapSet m b.URL b := by
  unfold importStep
  cases h : mapGet m b.URL <;> rfl

theorem mapKeys_mapSet (m : List (String × Bookmark)) (k : String) (v : Bookmark) :
    mapKeys (mapSet m k v) =
      if k ∈ mapKeys m then mapKeys m else mapKeys m ++ [k] := by
  unfold mapSet
  by_cases h : k ∈ mapKeys m
  · rw [if_pos h, if_pos h]
    unfold mapKeys
    rw [List.map_map]
    apply List.map_congr_left
    intro p _
    by_cases hp : p.1 = k
    · simp [hp]
    · simp [hp]
  · rw [if_neg h, if_neg h]
    unfold mapKeys
    rw [List.map_append]
    rfl

theorem length_mapSet (m : List (String × Bookmark)) (k : String) (v : Bookmark) :
    (mapSet m k v).length = if k ∈ mapKeys m then m.length else m.length + 1 := by
  unfold mapSet
  by_cases h : k ∈ mapKeys m
  · rw [if_pos h, if_pos h, List.length_map]
  · rw [if_neg h, if_neg h, List.length_append]
    rfl

theorem mem_mapKeys_mapSet (m : List (String × Bookmark)) (k : String) (v : Bookmark)
    (k2 : String) : k2 ∈ mapKeys (mapSet m k v) ↔ k2 ∈ mapKeys m ∨ k2 = k := by
  rw [mapKeys_mapSet]
  by_cases h : k ∈ mapKeys m
  · rw [if_pos h]
    constructor
    · exact Or.inl
    · rintro (h2 | rfl)
      · exact h2
      · exact h
  · rw [if_neg h]
    simp [List.mem_append]

theorem mapSet_values {P : Bookmark → Prop} (m : List (String × Bookmark))
    (k : String) (v : Bookmark) (hm : ∀ p ∈ m, P p.2) (hv : P v) :
    ∀ p ∈ mapSet m k v, P p.2 := by
  unfold mapSet
  by_cases h : k ∈ mapKeys m
  · rw [if_pos h]
    intro p hp
    rcases List.mem_map.mp hp with ⟨p0, hp0, rfl⟩
    by_cases h0 : p0.1 = k
    · simpa [h0] using hv
    · simpa [h0] using hm p0 hp0
  · rw [if_neg h]
    intro p hp
    rcases List.mem_append.mp hp with h2 | h2
    · exact hm p h2
    · rw [List.mem_singleton.mp h2]
      exact hv

/-- Folding the merge loop over imports with pairwise-distinct URLs grows the
map by the number of imports whose URL is not already a key. -/
theorem foldl_importStep_length (imports : List Bookmark) :
    ∀ m : List (String × Bookmark),
      imports.Pairwise (fun a b => a.URL ≠ b.URL) →
      (imports.foldl importStep m).length =
        m.length + imports.countP (fun b => !decide (b.URL ∈ mapKeys m)) := by
  induction imports with
  | nil => intro m _; simp
  | cons b rest ih =>
    intro m hpw
    rcases List.pairwise_cons.mp hpw with ⟨hb, hrest⟩
    rw [List.foldl_cons, importStep_eq, ih (mapSet m b.URL b) hrest]
    have hcount : rest.countP
        (fun x => !decide (x.URL ∈ mapKeys (mapSet m b.URL b))) =
          rest.countP (fun x => !decide (x.URL ∈ mapKeys m)) := by
      apply List.countP_congr
      intro x hx
      have hne : x.URL ≠ b.URL := fun hcontra => hb x hx hcontra.symm
      simp [mem_mapKeys_mapSet, hne]
    rw [hcount, length_mapSet, List.countP_cons]
    by_cases h : b.URL ∈ mapKeys m
    · simp [h]
    · simp only [h, if_neg h]
      simp
      omega

theorem foldl_mapSet_append (bs : List Bookmark) :
    ∀ m : List (String × Bookmark),
      (∀ b ∈ bs, b.URL ∉ mapKeys m) →
      bs.Pairwise (fun a b => a.URL ≠ b.URL) →
      bs.foldl (fun m b => mapSet m b.URL b) m =
        m ++ bs.map (fun b => (b.URL, b)) := by
  induction bs with
  | nil => intro m _ _; simp
  | cons b rest ih =>
    intro m hnk hpw
    rcases List.pairwise_cons.mp hpw with ⟨hb, hrest⟩
    rw [List.foldl_cons]
    have h1 : mapSet m b.URL b = m ++ [(b.URL, b)] := by
      unfold mapSet
      rw [if_neg (hnk b (by simp))]
    rw [h1, ih (m ++ [(b.URL, b)]) ?_ hrest]
    · simp
    · intro x hx
      have hx1 : x.URL ∉ mapKeys m := hnk x (by simp [hx])
      have hx2 : x.URL ≠ b.URL := fun hcontra => hb x hx hcontra.symm
      unfold mapKeys
      rw [List.map_append]
      intro hmem
      rcases List.mem_append.mp hmem with hc | hc
      · exact hx1 hc
      · exact hx2 (by simpa using hc)

theorem mapFromList_eq (bs : List Bookmark)
    (hpw : bs.Pairwise (fun a b => a.URL ≠ b.URL)) :
    mapFromList bs = bs.map (fun b => (b.URL, b)) := by
  unfold mapFromList
  rw [foldl_mapSet_append bs [] (by simp [mapKeys]) hpw]
  simp

theorem foldl_importStep_values {P : Bookmark → Prop} (imports : List Bookmark) :
    ∀ m : List (String × Bookmark),
      (∀ p ∈ m, P p.2) → (∀ b ∈ imports, P b) →
      ∀ p ∈ imports.foldl importStep m, P p.2 := by
  induction imports with
  | nil => intro m hm _; exact hm
  | cons b rest ih =>
    intro m hm hi
    rw [List.foldl_cons, importStep_eq]
    exact ih _ (mapSet_values m b.URL b hm (hi b (by simp)))
      (fun x hx => hi x (by simp [hx]))

theorem mem_getBookmarks_URL_ne (file : List Row) (b : Bookmark)
    (hb : b ∈ getBookmarks file) : b.URL ≠ "" := by
  unfold getBookmarks at hb
  rcases List.mem_map.mp hb with ⟨r, hr, rfl⟩
  rcases List.mem_filter.mp hr with ⟨_, ht⟩
  cases hu : r.URL with
  | none => rw [hu] at ht; simp [truthy] at ht
  | some s =>
    rw [hu] at ht
    simp only [truthy] at ht
    simpa [rowToBookmark, hu] using of_decide_eq_true ht

theorem mem_importedOf_URL_ne (source : List Row) (b : Bookmark)
    (hb : b ∈ importedOf source) : b.URL ≠ "" := by
  unfold importedOf at hb
  rcases List.mem_map.mp hb with ⟨r, hr, rfl⟩
  rcases List.mem_filter.mp hr with ⟨_, ht⟩
  cases hu : r.URL with
  | none => rw [hu] at ht; simp [truthy] at ht
  | some s =>
    rw [hu] at ht
    simp only [truthy] at ht
    simpa [importRowToBookmark, rowToBookmark, hu] using of_decide_eq_true ht

/-- Counterexample to C3 as stated: importing a 3-row file (two rows sharing
one fresh URL, one row without a URL) into an empty store leaves 1 stored
record — not `existingCount + N − M = 0 + 3 − 0 = 3` (nor `0 + 2 − 0 = 2`
counting only valid rows) — and returns 2, the number of valid rows, not the
3 rows read. -/
theorem importFromCSV_counterexample :
    (importFromCSV [importDupRowA, importDupRowB, importRowNoURL] []).1 = .ok 2 ∧
    (getBookmarks
      (importFromCSV [importDupRowA, importDupRowB, importRowNoURL] []).2).length = 1 ∧
    [importDupRowA, importDupRowB, importRowNoURL].length = 3 ∧
    getBookmarks ([] : List Row) = [] ∧
    (1 ≠ 0 + 3 - 0) ∧ (1 ≠ 0 + 2 - 0) ∧ ((2 : Nat) ≠ 3) := by
  exact ⟨rfl, by decide, rfl, rfl, by decide, by decide, by decide⟩

/-- C3 amended.  Provided the records already in the store have pairwise
distinct URLs and the valid import records (those carrying a URL) have
pairwise distinct URLs, `importFromCSV` merges each imported record by URL
(update-in-place if present, else append), leaving a store of
`existingCount + N − M` records and returning `N`, where `N` is the number
of import rows that carry a URL (rows without one are skipped, not counted)
and `M` the number of those whose URL is already in the store. -/
theorem importFromCSV_spec (source file : List Row)
    (hcur : (getBookmarks file).Pairwise (fun a b => a.URL ≠ b.URL))
    (himp : (importedOf source).Pairwise (fun a b => a.URL ≠ b.URL)) :
    ∃ file2,
      importFromCSV source file = (.ok (importedOf source).length, file2) ∧
      (getBookmarks file2).length =
        (getBookmarks file).length + (importedOf source).length -
          (importedOf source).countP
            (fun b => decide (b.URL ∈ (getBookmarks file).map Bookmark.URL)) := by
  have hexp : importFromCSV source file =
      (if (importedOf source).length = 0 then ((.ok 0 : Except String Nat), file)
       else
        (.ok (importedOf source).length,
          ((((importedOf source).foldl importStep
              (mapFromList (getBookmarks file))).map Prod.snd).map
                bookmarkToJS).map processRecord |>.map bookmarkToRow)) := rfl
  by_cases hemp : (importedOf source).length = 0
  · rw [hexp, if_pos hemp]
    refine ⟨file, by rw [List.length_eq_zero.mp hemp]; rfl, ?_⟩
    rw [List.length_eq_zero.mp hemp]
    simp
  · rw [hexp, if_neg hemp]
    refine ⟨_, rfl, ?_⟩
    have hm0 : ∀ p ∈ mapFromList (getBookmarks file), p.2.URL ≠ "" := by
      intro p hp
      rw [mapFromList_eq _ hcur] at hp
      rcases List.mem_map.mp hp with ⟨b, hbm, rfl⟩
      exact mem_getBookmarks_URL_ne file b hbm
    have himpne : ∀ b ∈ importedOf source, b.URL ≠ "" :=
      fun b hb => mem_importedOf_URL_ne source b hb
    rw [getBookmarks_map_toRow]
    have hall : ∀ x ∈ ((((importedOf source).foldl importStep
        (mapFromList (getBookmarks file))).map Prod.snd).map bookmarkToJS).map
          processRecord, (decide (x.URL ≠ "")) = true := by
      intro x hx
      rcases List.mem_map.mp hx with ⟨y, hy, rfl⟩
      rcases List.mem_map.mp hy with ⟨z, hz, rfl⟩
      rcases List.mem_map.mp hz with ⟨p, hp, rfl⟩
      have hPurl : p.2.URL ≠ "" :=
        foldl_importStep_values (P := fun b => b.URL ≠ "") (importedOf source)
          (mapFromList (getBookmarks file)) hm0 himpne p hp
      simpa [processRecord_bookmarkToJS] using hPurl
    rw [List.filter_eq_self.mpr hall]
    simp only [List.length_map]
    rw [foldl_importStep_length (importedOf source)
      (mapFromList (getBookmarks file)) himp]
    have hkeys : mapKeys (mapFromList (getBookmarks file)) =
        (getBookmarks file).map Bookmark.URL := by
      rw [mapFromList_eq _ hcur]
      unfold mapKeys
      rw [List.map_map]
      rfl
    have hm0len : (mapFromList (getBookmarks file)).length =
        (getBookmarks file).length := by
      rw [mapFromList_eq _ hcur, List.length_map]
    rw [hkeys, hm0len]
    have hpart := List.length_eq_countP_add_countP
      (fun b : Bookmark => decide (b.URL ∈ (getBookmarks file).map Bookmark.URL))
      (importedOf source)
    have hcong : (importedOf source).countP
        (fun b => !decide (b.URL ∈ (getBookmarks file).map Bookmark.URL)) =
          (importedOf source).countP
            (fun b => decide
              ¬(decide (b.URL ∈ (getBookmarks file).map Bookmark.URL) = true)) := by
      apply List.countP_congr
      intro x _
      simp
    omega

/-- Witness for C3: importing two distinct-URL rows (one matching the
existing record) into the one-record store `fileOne`. -/
theorem importFromCSV_spec_witness :
    (getBookmarks fileOne).Pairwise (fun a b => a.URL ≠ b.URL) ∧
    (importedOf [importRowX, importRowE]).Pairwise (fun a b => a.URL ≠ b.URL) ∧
    ∃ file2,
      importFromCSV [importRowX, importRowE] fileOne =
        (.ok (importedOf [importRowX, importRowE]).length, file2) ∧
      (getBookmarks file2).length =
        (getBookmarks fileOne).length + (importedOf [importRowX, importRowE]).length -
          (importedOf [importRowX, importRowE]).countP
            (fun b => decide (b.URL ∈ (getBookmarks fileOne).map Bookmark.URL)) :=
  ⟨by decide, by decide, importFromCSV_spec [importRowX, importRowE] fileOne
    (by decide) (by decide)⟩

end BookmarkApp
